import Mathlib

/-!
Shallow embedding of `src/cfg.py` (the SCMS configuration wrapper).

The repository is a thin attribute-proxy layer over Python's `configparser`:
`ConfigManager` owns a file path and an in-memory sectioned store,
`ConfigSection` translates attribute reads/writes into store lookups/upserts
followed by a full save, and `Config` hands out sections and rejects direct
attribute assignment.

Modelling conventions:
- Python values reaching the store are modelled by `PyValue`
  (the absence sentinel `None`, strings, and integers); `pyStr` is Python's
  `str()` on these values.
- The `configparser` state (`ConfigParser`) holds the `DEFAULT` defaults
  mapping and the ordered section store, each section an ordered association
  list of options; option names are normalized with `optionxform` (ASCII
  lower-casing, matching `str.lower` on the ASCII names the repository uses).
  `add_section` rejects the reserved name `DEFAULT`; `get` looks options up
  through the section-then-defaults chain of `_unify_values` and then runs
  `BasicInterpolation.before_get` (`%%` collapses to `%`, `%(name)s` expands
  recursively with a depth limit, anything else after `%` raises); `set` runs
  `BasicInterpolation.before_set`, which rejects values containing a bare `%`.
- Python attribute reads of the instance attributes (`manager` on `Config`,
  `manager`/`section` on `ConfigSection`) never invoke `__getattr__`; the
  attribute-read operations model this short circuit explicitly.
- The INI file is modelled at line granularity (`IniLine`): section headers,
  `key = value` entries, blank lines, and unparseable garbage lines.
  `configsWrite` mirrors `ConfigParser.write`; `iniReadLines` mirrors
  `ConfigParser.read` in strict mode: duplicate sections/options and entries
  before any header abort the parse immediately, garbage lines record a
  parsing error that is raised only after the whole file was consumed, and the
  store keeps everything parsed up to the failure.
- The filesystem is a path-to-lines map plus a list of unwritable paths, so
  that the caught-and-logged save failure of `save_configs` is representable.
-/

namespace SCMS

/-- Python values that the repository passes into the store layer: the absence
sentinel `None`, strings, and integers. -/
inductive PyValue
  | none
  | str (s : String)
  | int (n : Int)
deriving DecidableEq

/-- Decimal digit characters, used to model Python's `str()` on integers. -/
def digitChar (d : Nat) : Char :=
  if d = 0 then '0' else if d = 1 then '1' else if d = 2 then '2'
  else if d = 3 then '3' else if d = 4 then '4' else if d = 5 then '5'
  else if d = 6 then '6' else if d = 7 then '7' else if d = 8 then '8' else '9'

/-- Fuel-indexed decimal digit expansion, most significant digit first. -/
def natToDigitsAux : Nat → Nat → List Char
  | 0, _ => []
  | fuel + 1, n =>
    if n < 10 then [digitChar n]
    else natToDigitsAux fuel (n / 10) ++ [digitChar (n % 10)]

/-- Decimal representation of a natural number (Python `str` on a
non-negative integer). -/
def natStr (n : Nat) : String := ⟨natToDigitsAux (n + 1) n⟩

/-- Decimal representation of an integer (Python `str` on an `int`). -/
def intStr : Int → String
  | Int.ofNat m => natStr m
  | Int.negSucc m => "-" ++ natStr (m + 1)

/-- Python's `str()` on the modelled values; `str(None)` is `"None"`. -/
def pyStr : PyValue → String
  | PyValue.none => "None"
  | PyValue.str s => s
  | PyValue.int n => intStr n

/-- ASCII lower-casing of one character, as `str.lower` acts on the ASCII
option names used by the repository. -/
def asciiLower (c : Char) : Char :=
  if 65 ≤ c.toNat ∧ c.toNat ≤ 90 then Char.ofNat (c.toNat + 32) else c

/-- The option-name normalization of `configparser` (its default
`optionxform`, i.e. `str.lower`). -/
def optionxform (k : String) : String := ⟨k.data.map asciiLower⟩

/-- Options of one section: an ordered association list from option name to
stored string value, mirroring `configparser`'s ordered dict. -/
abbrev Options := List (String × String)

/-- The in-memory store of a `ConfigParser`: ordered association list from
section name to its options. -/
abbrev Store := List (String × Options)

/-- Lookup of an option by (already normalized) name. -/
def optLookup : Options → String → Option String
  | [], _ => Option.none
  | (k, v) :: rest, q => if k = q then Option.some v else optLookup rest q

/-- Order-preserving upsert of an option by (already normalized) name. -/
def optSet : Options → String → String → Options
  | [], k, v => [(k, v)]
  | (k', v') :: rest, k, v =>
    if k' = k then (k, v) :: rest else (k', v') :: optSet rest k v

/-- Lookup of a section by name (section names are not normalized). -/
def storeLookup : Store → String → Option Options
  | [], _ => Option.none
  | (n, kvs) :: rest, s => if n = s then Option.some kvs else storeLookup rest s

/-- `ConfigParser.has_section`. -/
def hasSection (st : Store) (s : String) : Bool := (storeLookup st s).isSome

/-- `ConfigParser.add_section`: appends a fresh empty section. -/
def addSection (st : Store) (s : String) : Store := st ++ [(s, [])]

/-- `ConfigParser.set` on an existing section: upserts the option under the
normalized name.  (`configparser` raises `NoSectionError` when the section is
absent; the repository always guards with `has_section`, so this model leaves
the store unchanged on that dead branch.) -/
def configsSet : Store → String → String → String → Store
  | [], _, _, _ => []
  | (n, kvs) :: rest, s, k, v =>
    if n = s then (n, optSet kvs (optionxform k) v) :: rest
    else (n, kvs) :: configsSet rest s k v

/-- Raw lookup in the section store with option-name normalization, without
the defaults chain and without interpolation.  This is how `_read` stores and
checks options within one parse (the `elements_added` duplicate check on a
fresh parser) — not the public `get`. -/
def storeGet (st : Store) (s k : String) : Option String :=
  match storeLookup st s with
  | Option.none => Option.none
  | Option.some kvs => optLookup kvs (optionxform k)

/-- The Python exceptions the modelled operations can raise:
`AttributeError` (from `Config.__setattr__`), `ValueError` (from
`add_section("DEFAULT")` and `BasicInterpolation.before_set`),
`DuplicateSectionError`, the two lookup errors `NoSectionError` /
`NoOptionError` that `ConfigSection.__getattr__` catches, and the three
interpolation errors of `BasicInterpolation.before_get`, which nothing in the
repository catches. -/
inductive PyErr
  | attributeError
  | valueError
  | duplicateSectionError
  | noSectionError
  | noOptionError
  | interpolationSyntaxError
  | interpolationMissingOptionError
  | interpolationDepthError
deriving DecidableEq

instance {ε α : Type} [DecidableEq ε] [DecidableEq α] : DecidableEq (Except ε α) :=
  fun a b =>
    match a, b with
    | Except.ok x, Except.ok y =>
      match decEq x y with
      | isTrue h => isTrue (h ▸ rfl)
      | isFalse h => isFalse fun hh => h (Except.ok.inj hh)
    | Except.error x, Except.error y =>
      match decEq x y with
      | isTrue h => isTrue (h ▸ rfl)
      | isFalse h => isFalse fun hh => h (Except.error.inj hh)
    | Except.ok _, Except.error _ => isFalse fun hh => Except.noConfusion hh
    | Except.error _, Except.ok _ => isFalse fun hh => Except.noConfusion hh

/-! ### `BasicInterpolation`

`ConfigParser` (the class `cfg.py` instantiates) uses `BasicInterpolation`:
`set` validates values with `before_set` and `get` (called with `raw=False`
by `ConfigSection.__getattr__`) rewrites them with `before_get`. -/

/-- `value.replace('%%', '')` of `before_set`: remove non-overlapping `%%`
pairs left to right.  Fuel-indexed so that it stays kernel-computable; every
recursive call shrinks the list, so `length + 1` fuel always suffices. -/
def removeDoublePercentsAux : Nat → List Char → List Char
  | 0, _ => []
  | fuel + 1, cs =>
    match cs with
    | [] => []
    | c :: rest =>
      if c = '%' then
        match rest with
        | [] => ['%']
        | c2 :: rest1 =>
          if c2 = '%' then removeDoublePercentsAux fuel rest1
          else '%' :: removeDoublePercentsAux fuel rest
      else c :: removeDoublePercentsAux fuel rest

/-- `value.replace('%%', '')` with adequate fuel. -/
def removeDoublePercents (cs : List Char) : List Char :=
  removeDoublePercentsAux (cs.length + 1) cs

/-- Longest prefix without `')'`, and the remainder (starting at the first
`')'` when there is one). -/
def spanNotParen : List Char → List Char × List Char
  | [] => ([], [])
  | c :: rest =>
    if c = ')' then ([], c :: rest)
    else
      let r := spanNotParen rest
      (c :: r.1, r.2)

/-- `_KEYCRE.sub('', ...)` of `before_set`: delete every match of
`%\([^)]+\)s`, scanning left to right; where the pattern fails to match at a
`%`, the `%` is kept and scanning resumes at the next character.  Fuel-indexed
so that it stays kernel-computable; every recursive call shrinks the list, so
`length + 1` fuel always suffices. -/
def removeKeyRefsAux : Nat → List Char → List Char
  | 0, _ => []
  | fuel + 1, cs =>
    match cs with
    | [] => []
    | c :: rest =>
      if c = '%' then
        match rest with
        | [] => ['%']
        | c2 :: rest1 =>
          if c2 = '(' then
            match spanNotParen rest1 with
            | (inner, after) =>
              match after with
              | ')' :: c3 :: rest2 =>
                if c3 = 's' ∧ inner ≠ [] then removeKeyRefsAux fuel rest2
                else '%' :: removeKeyRefsAux fuel rest
              | _ => '%' :: removeKeyRefsAux fuel rest
          else '%' :: removeKeyRefsAux fuel rest
      else c :: removeKeyRefsAux fuel rest

/-- `BasicInterpolation.before_set`: after removing escaped `%%` pairs and
`%(name)s` references, no `%` may remain; otherwise `set` raises
`ValueError`. -/
def beforeSetOk (value : String) : Bool :=
  decide ('%' ∉ removeKeyRefsAux (value.data.length + 1)
    (removeDoublePercents value.data))

/-- The option view `_unify_values` builds for a section: the section's own
options chained over the `DEFAULT` defaults. -/
def chainLookup (kvs defs : Options) (q : String) : Option String :=
  match optLookup kvs q with
  | Option.some v => Option.some v
  | Option.none => optLookup defs q

/-- One scanning pass of `_interpolate_some` at a fixed depth: `%%` emits
`%`, `%(name)s` looks `name` up through the section/defaults chain (a value
containing `%` is expanded by `expand`, the next-depth interpolator), any
other use of `%` raises `InterpolationSyntaxError`, and a missing referenced
option raises `InterpolationMissingOptionError`.  Fuel-indexed (every
recursive call shrinks the list). -/
def interpScanAux (expand : List Char → Except PyErr (List Char))
    (kvs defs : Options) : Nat → List Char → Except PyErr (List Char)
  | 0, _ => Except.ok []
  | fuel + 1, cs =>
    match cs with
    | [] => Except.ok []
    | c :: rest =>
      if c = '%' then
        match rest with
        | [] => Except.error PyErr.interpolationSyntaxError
        | c2 :: rest1 =>
          if c2 = '%' then
            match interpScanAux expand kvs defs fuel rest1 with
            | Except.error e => Except.error e
            | Except.ok t => Except.ok ('%' :: t)
          else if c2 = '(' then
            match spanNotParen rest1 with
            | (inner, after) =>
              match after with
              | ')' :: c3 :: rest2 =>
                if c3 = 's' ∧ inner ≠ [] then
                  match chainLookup kvs defs (optionxform ⟨inner⟩) with
                  | Option.none => Except.error PyErr.interpolationMissingOptionError
                  | Option.some v =>
                    if '%' ∈ v.data then
                      match expand v.data with
                      | Except.error e => Except.error e
                      | Except.ok ev =>
                        match interpScanAux expand kvs defs fuel rest2 with
                        | Except.error e => Except.error e
                        | Except.ok t => Except.ok (ev ++ t)
                    else
                      match interpScanAux expand kvs defs fuel rest2 with
                      | Except.error e => Except.error e
                      | Except.ok t => Except.ok (v.data ++ t)
                else Except.error PyErr.interpolationSyntaxError
              | _ => Except.error PyErr.interpolationSyntaxError
          else Except.error PyErr.interpolationSyntaxError
      else
        match interpScanAux expand kvs defs fuel rest with
        | Except.error e => Except.error e
        | Except.ok t => Except.ok (c :: t)

/-- `_interpolate_some` with its depth budget: the initial call has depth 1
and `MAX_INTERPOLATION_DEPTH = 10`, so ten nesting levels are available and
the eleventh raises `InterpolationDepthError`. -/
def interpDepth (kvs defs : Options) : Nat → List Char → Except PyErr (List Char)
  | 0, _ => Except.error PyErr.interpolationDepthError
  | d + 1, cs => interpScanAux (interpDepth kvs defs d) kvs defs (cs.length + 1) cs

/-- `BasicInterpolation.before_get` over the section/defaults chain. -/
def beforeGet (kvs defs : Options) (value : String) : Except PyErr String :=
  match interpDepth kvs defs 10 value.data with
  | Except.error e => Except.error e
  | Except.ok t => Except.ok ⟨t⟩

/-! ### The `ConfigParser` state -/

/-- The state of a `configparser.ConfigParser`: the `DEFAULT` defaults
mapping (`_defaults`) and the ordered section store (`_sections`). -/
structure ConfigParser where
  defaults : Options
  sections : Store
deriving DecidableEq

/-- A freshly constructed parser. -/
def emptyParser : ConfigParser := ⟨[], []⟩

/-- `ConfigParser.add_section`: raises `ValueError` on the reserved name
`DEFAULT`, `DuplicateSectionError` on an existing section, else appends a
fresh empty section. -/
def addSectionE (cp : ConfigParser) (s : String) : Except PyErr ConfigParser :=
  if s = "DEFAULT" then Except.error PyErr.valueError
  else if hasSection cp.sections s then Except.error PyErr.duplicateSectionError
  else Except.ok { cp with sections := addSection cp.sections s }

/-- `ConfigParser.set`: `before_set` validation first (skipped for a falsy,
i.e. empty, value), then the target dict — the defaults for an empty or
`DEFAULT` section name, else the named section (`NoSectionError` if absent) —
and the upsert under the normalized option name. -/
def configsSetE (cp : ConfigParser) (s k v : String) : Except PyErr ConfigParser :=
  if v ≠ "" ∧ beforeSetOk v = false then Except.error PyErr.valueError
  else if s = "" ∨ s = "DEFAULT" then
    Except.ok { cp with defaults := optSet cp.defaults (optionxform k) v }
  else
    match storeLookup cp.sections s with
    | Option.none => Except.error PyErr.noSectionError
    | Option.some _ => Except.ok { cp with sections := configsSet cp.sections s k v }

/-- `ConfigParser.get` with `raw=False` (as `ConfigSection.__getattr__` calls
it): a section absent from the store raises `NoSectionError` unless it is
`DEFAULT`; the option is looked up through the section/defaults chain
(`_unify_values`), a miss raises `NoOptionError`; the found value goes
through `before_get` interpolation, whose errors propagate. -/
def configsGetE (cp : ConfigParser) (s k : String) : Except PyErr String :=
  match storeLookup cp.sections s with
  | Option.some kvs =>
    (match chainLookup kvs cp.defaults (optionxform k) with
     | Option.none => Except.error PyErr.noOptionError
     | Option.some value => beforeGet kvs cp.defaults value)
  | Option.none =>
    if s = "DEFAULT" then
      match chainLookup [] cp.defaults (optionxform k) with
      | Option.none => Except.error PyErr.noOptionError
      | Option.some value => beforeGet [] cp.defaults value
    else Except.error PyErr.noSectionError

/-- One line of an INI file, at the granularity `configparser` reads and
writes: a `[name]` header, a `key = value` entry, a blank line, or an
unparseable (corrupt) line. -/
inductive IniLine
  | sectionHeader (name : String)
  | entry (key value : String)
  | blank
  | garbage (text : String)
deriving DecidableEq

/-- The entry lines `ConfigParser.write` emits for one section's options. -/
def writeOpts (kvs : Options) : List IniLine :=
  kvs.map fun p => IniLine.entry p.1 p.2

/-- The lines `ConfigParser.write` emits for the named sections: for each a
header, its entries, and a trailing blank line, in store order. -/
def configsWriteSections : Store → List IniLine
  | [] => []
  | (n, kvs) :: rest =>
    IniLine.sectionHeader n ::
      (writeOpts kvs ++ IniLine.blank :: configsWriteSections rest)

/-- `ConfigParser.write`: the `DEFAULT` block first when the defaults are
nonempty, then every named section. -/
def configsWrite (cp : ConfigParser) : List IniLine :=
  (if cp.defaults = [] then []
   else IniLine.sectionHeader "DEFAULT" :: (writeOpts cp.defaults ++ [IniLine.blank]))
    ++ configsWriteSections cp.sections

/-- `ConfigParser.read` on a list of lines into a fresh parser, mirroring
strict-mode parsing: a duplicate section header, a duplicate option, or an
entry before any header aborts immediately (`DuplicateSectionError` /
`DuplicateOptionError` / `MissingSectionHeaderError`); a `[DEFAULT]` header
redirects the following entries into the defaults and is never a duplicate;
a garbage line records a `ParsingError` that is raised only after all lines
were consumed.  Returns the parser state as mutated so far together with the
error flag — exactly what a caller that catches the exception observes.
(On the fresh parser `load_configs` always uses, membership in the target
dict coincides with the strict `elements_added` duplicate check.) -/
def iniReadLines : List IniLine → ConfigParser → Option String → Bool →
    ConfigParser × Bool
  | [], cp, _, err => (cp, err)
  | IniLine.sectionHeader n :: rest, cp, _, err =>
    if hasSection cp.sections n then (cp, true)
    else if n = "DEFAULT" then iniReadLines rest cp (Option.some n) err
    else iniReadLines rest { cp with sections := addSection cp.sections n }
      (Option.some n) err
  | IniLine.entry k v :: rest, cp, cur, err =>
    match cur with
    | Option.none => (cp, true)
    | Option.some s =>
      if s = "DEFAULT" then
        if (optLookup cp.defaults (optionxform k)).isSome then (cp, true)
        else iniReadLines rest
          { cp with defaults := optSet cp.defaults (optionxform k) v }
          (Option.some s) err
      else
        if (storeGet cp.sections s k).isSome then (cp, true)
        else iniReadLines rest { cp with sections := configsSet cp.sections s k v }
          (Option.some s) err
  | IniLine.blank :: rest, cp, cur, err => iniReadLines rest cp cur err
  | IniLine.garbage _ :: rest, cp, cur, _ => iniReadLines rest cp cur true

/-- The filesystem visible to the repository: file contents by path, plus the
paths on which opening for write raises `OSError`. -/
structure FS where
  files : List (String × List IniLine)
  unwritable : List String
deriving DecidableEq

/-- Reading a file: `Option.none` when the path does not exist. -/
def fsRead (fs : FS) (path : String) : Option (List IniLine) :=
  match fs.files.find? (fun p => p.1 = path) with
  | Option.none => Option.none
  | Option.some p => Option.some p.2

/-- Upsert of one file's contents. -/
def fsUpdate : List (String × List IniLine) → String → List IniLine →
    List (String × List IniLine)
  | [], path, c => [(path, c)]
  | (p, c') :: rest, path, c =>
    if p = path then (path, c) :: rest else (p, c') :: fsUpdate rest path c

/-- Opening a path for write and writing the content: raises (models
`OSError`) on an unwritable path. -/
def fsWriteE (fs : FS) (path : String) (content : List IniLine) :
    Except Unit FS :=
  if path ∈ fs.unwritable then Except.error ()
  else Except.ok { fs with files := fsUpdate fs.files path content }

/-- `ConfigManager`: the file path and the in-memory `ConfigParser`. -/
structure ConfigManager where
  file_path : String
  configs : ConfigParser
deriving DecidableEq

/-- `ConfigManager.load_configs`: if the file exists, read it; the read's
exception (if any) is caught and logged, so the parser keeps whatever the
parse produced up to the failure. -/
def loadConfigs (fs : FS) (path : String) (cp : ConfigParser) : ConfigParser :=
  match fsRead fs path with
  | Option.none => cp
  | Option.some lines => (iniReadLines lines cp Option.none false).1

/-- `ConfigManager.__init__`: records the path, starts from a fresh
`ConfigParser`, and runs `load_configs`. -/
def ConfigManager.create (fs : FS) (path : String) : ConfigManager :=
  { file_path := path, configs := loadConfigs fs path emptyParser }

/-- `ConfigManager.save_configs`: writes the serialized store to the file;
an exception is caught and logged, leaving the filesystem unchanged. -/
def saveConfigs (m : ConfigManager) (fs : FS) : FS :=
  match fsWriteE fs m.file_path (configsWrite m.configs) with
  | Except.ok fs' => fs'
  | Except.error _ => fs

/-- `ConfigSection`: a proxy holding its manager and its section name, set
through `object.__setattr__` at construction. -/
structure ConfigSection where
  manager : ConfigManager
  sectionName : String
deriving DecidableEq

/-- `Config`: the root proxy holding only the manager. -/
structure Config where
  manager : ConfigManager
deriving DecidableEq

/-- The `object.__setattr__` branch of `ConfigSection.__setattr__`: rebinding
of the proxy's own bookkeeping fields.  The model's fields are typed, so only
a string value rebinding `section` is representable; every other rebinding
leaves the typed fields as they are — in all cases the store and the
filesystem are untouched, which is the frame behaviour under study. -/
def superSetattr (cs : ConfigSection) (key : String) (value : PyValue) :
    ConfigSection :=
  if key = "section" then
    match value with
    | PyValue.str s => { cs with sectionName := s }
    | _ => cs
  else cs

/-- `ConfigSection.__setattr__`: the keys `manager` and `section` rebind the
proxy's own fields; any other key ensures the section exists (`add_section`
raises for `DEFAULT`), upserts the string-coerced value through
`ConfigParser.set` (whose `before_set` raises for a bare `%`), and saves the
whole store through the manager.  No exception is caught here, so an error
propagates with no state produced. -/
def ConfigSection.setattrOp (cs : ConfigSection) (fs : FS) (key : String)
    (value : PyValue) : Except PyErr (ConfigSection × FS) :=
  if key = "manager" ∨ key = "section" then
    Except.ok (superSetattr cs key value, fs)
  else
    match
      (if hasSection cs.manager.configs.sections cs.sectionName then
        Except.ok cs.manager.configs
       else addSectionE cs.manager.configs cs.sectionName) with
    | Except.error e => Except.error e
    | Except.ok cp1 =>
      match configsSetE cp1 cs.sectionName key
          (if value = PyValue.none then "None" else pyStr value) with
      | Except.error e => Except.error e
      | Except.ok cp2 =>
        let m2 : ConfigManager := { cs.manager with configs := cp2 }
        Except.ok ({ cs with manager := m2 }, saveConfigs m2 fs)

/-- `Config.__setattr__`: unconditionally raises `AttributeError`; no state
is produced. -/
def Config.setattrOp (_c : Config) (_fs : FS) (_attr : String)
    (_value : PyValue) : Except PyErr (Config × FS) :=
  Except.error PyErr.attributeError

/-- `ConfigManager.register`: builds `./config/<name>.ini` (the `config`
directory itself is created at module import time, outside this function),
constructs a manager, saves, and wraps it in a `Config`.  The surrounding
`try/except` of the source never fires in this model because `load_configs`
and `save_configs` catch their own exceptions. -/
def register (fs : FS) (name : String) : Option Config × FS :=
  let file_path := "./config/" ++ name ++ ".ini"
  let m := ConfigManager.create fs file_path
  let fs2 := saveConfigs m fs
  (Option.some { manager := m }, fs2)

theorem optLookup_none_of_not_mem (kvs : Options) (q : String)
    (h : q ∉ kvs.map Prod.fst) : optLookup kvs q = Option.none := by
  induction kvs with
  | nil => rfl
  | cons p rest ih =>
    rw [List.map_cons] at h
    have h1 : ¬p.1 = q := fun hh => h (hh ▸ List.mem_cons_self _ _)
    have h2 : q ∉ rest.map Prod.fst := fun hm => h (List.mem_cons_of_mem _ hm)
    rw [optLookup, if_neg h1]
    exact ih h2

theorem storeLookup_none_of_not_mem (st : Store) (s : String)
    (h : s ∉ st.map Prod.fst) : storeLookup st s = Option.none := by
  induction st with
  | nil => rfl
  | cons p rest ih =>
    rw [List.map_cons] at h
    have h1 : ¬p.1 = s := fun hh => h (hh ▸ List.mem_cons_self _ _)
    have h2 : s ∉ rest.map Prod.fst := fun hm => h (List.mem_cons_of_mem _ hm)
    rw [storeLookup, if_neg h1]
    exact ih h2

theorem configsSet_lookup_other (st : Store) (s k v s' : String) (hs : s' ≠ s) :
    storeLookup (configsSet st s k v) s' = storeLookup st s' := by
  induction st with
  | nil => rfl
  | cons p rest ih =>
    cases p with
    | mk n kvs0 =>
      by_cases hp : n = s
      · subst hp
        have hns : ¬n = s' := fun hh => hs hh.symm
        simp [configsSet, storeLookup, hns]
      · by_cases hq : n = s'
        · subst hq
          simp [configsSet, hp, storeLookup]
        · simp [configsSet, hp, storeLookup, hq, ih]

theorem fsUpdate_find_self (l : List (String × List IniLine)) (path : String)
    (c : List IniLine) :
    (fsUpdate l path c).find? (fun p => p.1 = path) = Option.some (path, c) := by
  induction l with
  | nil => simp [fsUpdate]
  | cons p rest ih =>
    by_cases hp : p.1 = path
    · simp [fsUpdate, hp]
    · simp [fsUpdate, hp, ih]

theorem fsRead_saveConfigs_self (m : ConfigManager) (fs : FS)
    (h : m.file_path ∉ fs.unwritable) :
    fsRead (saveConfigs m fs) m.file_path = Option.some (configsWrite m.configs) := by
  unfold saveConfigs fsWriteE
  rw [if_neg h]
  unfold fsRead
  rw [fsUpdate_find_self]

theorem saveConfigs_unwritable (m : ConfigManager) (fs : FS)
    (h : m.file_path ∈ fs.unwritable) : saveConfigs m fs = fs := by
  unfold saveConfigs fsWriteE
  rw [if_pos h]

theorem create_configs_of_read (fs : FS) (path : String) (lines : List IniLine)
    (h : fsRead fs path = Option.some lines) :
    (ConfigManager.create fs path).configs
      = (iniReadLines lines emptyParser Option.none false).1 := by
  show loadConfigs fs path emptyParser = _
  unfold loadConfigs
  rw [h]

theorem create_configs_of_missing (fs : FS) (path : String)
    (h : fsRead fs path = Option.none) :
    (ConfigManager.create fs path).configs = emptyParser := by
  show loadConfigs fs path emptyParser = _
  unfold loadConfigs
  rw [h]

/-- An empty filesystem: no files, everything writable. -/
def emptyFS : FS := ⟨[], []⟩

/-- Claim C5.  Every direct attribute assignment on a `Config` raises
`AttributeError` synchronously; no resulting state (store or filesystem) is
ever produced. -/
theorem c5_config_setattr_raises (c : Config) (fs : FS) (attr : String) (v : PyValue) :
    Config.setattrOp c fs attr v = Except.error PyErr.attributeError := rfl

/-- Claim C9.  Assigning to the key `manager` or `section` on a
`ConfigSection` takes the `object.__setattr__` branch: the write raises
nothing and returns the filesystem untouched (no save), the manager and its
store are untouched, a subsequent read of that key through the store sees
exactly what it saw before, and a string assignment to `section` rebinds the
proxy's own section name. -/
theorem c9_bookkeeping_rebind (cs : ConfigSection) (fs : FS) (key : String) (v : PyValue)
    (h : key = "manager" ∨ key = "section") :
    cs.setattrOp fs key v = Except.ok (superSetattr cs key v, fs)
    ∧ (superSetattr cs key v).manager = cs.manager
    ∧ configsGetE (superSetattr cs key v).manager.configs cs.sectionName key
        = configsGetE cs.manager.configs cs.sectionName key
    ∧ (∀ s, key = "section" → v = PyValue.str s →
        (superSetattr cs key v).sectionName = s) := by
  have hm : (superSetattr cs key v).manager = cs.manager := by
    unfold superSetattr
    by_cases hk : key = "section"
    · rw [if_pos hk]
      cases v <;> rfl
    · rw [if_neg hk]
  refine ⟨?_, hm, by rw [hm], ?_⟩
  · unfold ConfigSection.setattrOp
    rw [if_pos h]
  · intro s hk hv
    subst hk
    subst hv
    unfold superSetattr
    rw [if_pos rfl]

/-- Claim C9, witness: rebinding `section` to the string `"x"` on a proxy
over a nonempty store raises nothing, leaves filesystem and store unchanged,
and renames the proxy. -/
theorem c9_witness :
    (ConfigSection.mk ⟨"app.ini", ⟨[], [("alpha", [("k", "v")])]⟩⟩ "alpha").setattrOp
        emptyFS "section" (PyValue.str "x")
      = Except.ok (superSetattr
          (ConfigSection.mk ⟨"app.ini", ⟨[], [("alpha", [("k", "v")])]⟩⟩ "alpha")
          "section" (PyValue.str "x"), emptyFS)
    ∧ (superSetattr (ConfigSection.mk ⟨"app.ini", ⟨[], [("alpha", [("k", "v")])]⟩⟩
          "alpha") "section" (PyValue.str "x")).manager
        = ⟨"app.ini", ⟨[], [("alpha", [("k", "v")])]⟩⟩
    ∧ (superSetattr (ConfigSection.mk ⟨"app.ini", ⟨[], [("alpha", [("k", "v")])]⟩⟩
          "alpha") "section" (PyValue.str "x")).sectionName = "x" := by
  obtain ⟨ha, hb, -, hd⟩ := c9_bookkeeping_rebind
    (ConfigSection.mk ⟨"app.ini", ⟨[], [("alpha", [("k", "v")])]⟩⟩ "alpha") emptyFS
    "section" (PyValue.str "x") (Or.inr rfl)
  exact ⟨ha, hb, hd "x" rfl rfl⟩

/-- A filesystem with no files on which the registration path cannot be
opened for writing. -/
def roFS : FS := ⟨[], ["./config/n.ini"]⟩

/-- Claim C6, amended.  `register(name)` computes `./config/<name>.ini`,
constructs a manager for it, attempts a save (creating the file whenever the
path is writable), and returns a `Config` wrapping that manager.  Exceptions
inside loading and saving are caught and logged by `load_configs` and
`save_configs` themselves, so `register` returns a `Config` — not the absent
value — even when the save fails and no file is created; the `config`
directory is created at module import time, outside `register`. -/
theorem c6_register_returns_config (fs : FS) (name : String) :
    (register fs name).1
      = Option.some ⟨ConfigManager.create fs ("./config/" ++ name ++ ".ini")⟩
    ∧ (("./config/" ++ name ++ ".ini") ∉ fs.unwritable →
        fsRead (register fs name).2 ("./config/" ++ name ++ ".ini")
          = Option.some (configsWrite
              (ConfigManager.create fs ("./config/" ++ name ++ ".ini")).configs))
    ∧ (("./config/" ++ name ++ ".ini") ∈ fs.unwritable → (register fs name).2 = fs) := by
  refine ⟨rfl, ?_, ?_⟩
  · intro hw
    exact fsRead_saveConfigs_self
      (ConfigManager.create fs ("./config/" ++ name ++ ".ini")) fs hw
  · intro hu
    exact saveConfigs_unwritable
      (ConfigManager.create fs ("./config/" ++ name ++ ".ini")) fs hu

/-- Claim C6, counterexample to the claim as stated: on a filesystem where
the computed path cannot be opened for writing, the save inside
registration fails (no file is ever created), yet `register` still returns
a `Config` rather than the absent value, because `save_configs` swallows
its own exception. -/
theorem c6_counterexample :
    ((register roFS "n").1).isSome = true
    ∧ fsRead (register roFS "n").2 "./config/n.ini" = Option.none := by
  exact ⟨rfl, by decide⟩

/-- Claim C6, witness: registration on an empty writable filesystem returns
a `Config` over `./config/n.ini` and creates the file with the serialized
(empty) store. -/
theorem c6_witness :
    (register emptyFS "n").1
      = Option.some ⟨ConfigManager.create emptyFS ("./config/" ++ "n" ++ ".ini")⟩
    ∧ fsRead (register emptyFS "n").2 ("./config/" ++ "n" ++ ".ini")
      = Option.some (configsWrite
          (ConfigManager.create emptyFS ("./config/" ++ "n" ++ ".ini")).configs) := by
  obtain ⟨ha, hb, -⟩ := c6_register_returns_config emptyFS "n"
  exact ⟨ha, hb (by decide)⟩

/-- A corrupt file: a good section and entry followed by an unparseable
line. -/
def badLines : List IniLine :=
  [IniLine.sectionHeader "alpha", IniLine.entry "k" "v", IniLine.garbage "oops"]

/-- A filesystem holding the corrupt file. -/
def badFS : FS := ⟨[("bad.ini", badLines)], []⟩

/-- Claim C7, amended.  Constructing a `ConfigManager` never raises: a
missing file yields the fresh empty parser state, and a present file yields
exactly what the parser accumulated before any failure — the parse error is
caught and logged at the manager boundary, and the partially parsed
sections are kept.  The state is empty only when nothing parsed, e.g. when
the very first content line is an entry before any section header
(`MissingSectionHeaderError`). -/
theorem c7_load_failure_keeps_partial (fs : FS) (path : String) :
    (fsRead fs path = Option.none → (ConfigManager.create fs path).configs = emptyParser)
    ∧ (∀ lines, fsRead fs path = Option.some lines →
        (ConfigManager.create fs path).configs
          = (iniReadLines lines emptyParser Option.none false).1)
    ∧ (∀ k v rest, fsRead fs path = Option.some (IniLine.entry k v :: rest) →
        (ConfigManager.create fs path).configs = emptyParser) := by
  refine ⟨create_configs_of_missing fs path, create_configs_of_read fs path, ?_⟩
  intro k v rest h
  rw [create_configs_of_read fs path _ h]
  rfl

/-- Claim C7, counterexample to the claim as stated: a corrupt file (its
parse reports an error) on which the constructed manager's store is not
empty — it keeps the section and key parsed before the garbage line. -/
theorem c7_counterexample :
    (iniReadLines badLines emptyParser Option.none false).2 = true
    ∧ (ConfigManager.create badFS "bad.ini").configs
        = ⟨[], [("alpha", [("k", "v")])]⟩
    ∧ (ConfigManager.create badFS "bad.ini").configs ≠ emptyParser := by
  exact ⟨by decide, by decide, by decide⟩

/-- Claim C7, witness: a missing file yields the fresh empty state, and the
corrupt file yields exactly the parser's partial result. -/
theorem c7_witness :
    (ConfigManager.create emptyFS "missing.ini").configs = emptyParser
    ∧ (ConfigManager.create badFS "bad.ini").configs
      = (iniReadLines badLines emptyParser Option.none false).1 := by
  obtain ⟨ha, -, -⟩ := c7_load_failure_keeps_partial emptyFS "missing.ini"
  obtain ⟨-, hb, -⟩ := c7_load_failure_keeps_partial badFS "bad.ini"
  exact ⟨ha (by decide), hb badLines (by decide)⟩

end SCMS
